import Mathlib

/-!
Verification of the fyre entity-simulation engine (src/App.js) against its
natural-language specification.  The JavaScript source is shallowly embedded:
JS numbers that only ever hold reals are modelled as rationals (ℚ) or integers,
JS class state becomes Lean structures with explicit state passing, JS `Map`s
become lookup functions or association lists, and code that can throw returns
`Except`/`Option`.  Line references are to src/App.js.
-/

namespace Fyre

/-! ### Global constants (App.js lines 24-54, 83) -/

/-- GRID_SUBDIV = 5 (line 24). -/
def GRID_SUBDIV : Nat := 5

/-- GRID_ROWS = 17 * GRID_SUBDIV (line 25). -/
def GRID_ROWS : Nat := 17 * GRID_SUBDIV

/-- GRID_COLS = 18 * GRID_SUBDIV (line 26). -/
def GRID_COLS : Nat := 18 * GRID_SUBDIV

/-- GRID_UNIT_WIDTH = 64 / GRID_SUBDIV (line 27); a rational, 64/5. -/
def GRID_UNIT_WIDTH : ℚ := 64 / 5

/-- GRID_UNIT_HEIGHT = 64 / GRID_SUBDIV (line 28). -/
def GRID_UNIT_HEIGHT : ℚ := 64 / 5

/-- TENT_ADJACENCY_RADIUS = 100 (line 47). -/
def TENT_ADJACENCY_RADIUS : ℚ := 100

/-- MAX_CAPTURABLE_TENT_GROUP = 3 (line 52). -/
def MAX_CAPTURABLE_TENT_GROUP : Nat := 3

/-- `const [WALKABLE, AI_UNWALKABLE, UNWALKABLE] = range(3)` (line 83). -/
def WALKABLE : Nat := 0

/-- Second walkability value from `range(3)` (line 83). -/
def AI_UNWALKABLE : Nat := 1

/-- Third walkability value from `range(3)` (line 83). -/
def UNWALKABLE : Nat := 2

/-! ### Vec2d (src/Vec2d.js), positions as rationals -/

/-- A 2D vector/position; JS `Vec2d` with number fields, embedded over ℚ. -/
structure Vec2q where
  x : ℚ := 0
  y : ℚ := 0
  deriving DecidableEq, Repr

/-- Vec2d.add (Vec2d.js): componentwise addition. -/
def Vec2q.add (a b : Vec2q) : Vec2q := ⟨a.x + b.x, a.y + b.y⟩

/-- `Math.floor` on a rational (total; a rational is never NaN). -/
def mathFloor (q : ℚ) : Int := q.floor

/-! ### Grid coordinate conversion (App.js 1541-1601)

`GRID_OFFSET = GRID_START.clone().add({x:0,y:0})` with GRID_START = (20,20)
(lines 54, 1559-1564). -/

/-- GRID_OFFSET.x = 20. -/
def GRID_OFFSET_X : ℚ := 20

/-- GRID_OFFSET.y = 20. -/
def GRID_OFFSET_Y : ℚ := 20

/-- `clamp(x, min, max) = Math.max(Math.min(x, max), min)` (line 1541). -/
def clamp (x mn mx : Int) : Int := max (min x mx) mn

/-- `Grid.toGridCoords` (lines 1566-1581): floor-divide by the grid unit and
clamp into `[0, GRID_COLS-1] × [0, GRID_ROWS-1]`.  The JS NaN guard that
throws cannot fire here: rational arithmetic has no NaN, so the function is
total. -/
def toGridCoords (pos : Vec2q) : Int × Int :=
  (clamp (mathFloor ((pos.x - GRID_OFFSET_X) / GRID_UNIT_WIDTH)) 0 (GRID_COLS - 1),
   clamp (mathFloor ((pos.y - GRID_OFFSET_Y) / GRID_UNIT_HEIGHT)) 0 (GRID_ROWS - 1))

/-- `Grid.toGridCoordsUnclamped` (lines 1582-1589): the same mapping without
clamping. -/
def toGridCoordsUnclamped (pos : Vec2q) : Int × Int :=
  (mathFloor ((pos.x - GRID_OFFSET_X) / GRID_UNIT_WIDTH),
   mathFloor ((pos.y - GRID_OFFSET_Y) / GRID_UNIT_HEIGHT))

/-- `Grid.tileCenterFromGridCoords` (lines 1590-1595). -/
def tileCenterFromGridCoords (p : Int × Int) : Vec2q :=
  ⟨GRID_OFFSET_X + (p.1 + (1 : ℚ)/2) * GRID_UNIT_WIDTH,
   GRID_OFFSET_Y + (p.2 + (1 : ℚ)/2) * GRID_UNIT_HEIGHT⟩

/-! ### Tile grid lookup (App.js 1633-1655) -/

/-- The walkability grid: `tileGrid` is a 2D array of walkability numbers. -/
def TileGrid := List (List Nat)

/-- `Grid._isValidGridTile` (lines 1633-1644): in-range check against the row
count and the addressed row's length. -/
def isValidGridTile (g : TileGrid) (p : Int × Int) : Bool :=
  !(p.2 < 0 || p.2 ≥ (g.length : Int) ||
    p.1 < 0 || p.1 ≥ ((g.getD p.2.toNat []).length : Int))

/-- `Grid.getGridTile` (lines 1646-1655): `null` (none) off-grid, otherwise the
stored walkability value.  (The `getD` defaults are only reachable when the
validity check has already failed.) -/
def getGridTile (g : TileGrid) (p : Int × Int) : Option Nat :=
  if isValidGridTile g p then some ((g.getD p.2.toNat []).getD p.1.toNat 0)
  else none

/-- The pathfinder's acceptable tiles: `easystar.setAcceptableTiles([WALKABLE])`
(line 1551) — only WALKABLE tiles take part in the pathfinding search. -/
def acceptableTiles : List Nat := [WALKABLE]

/-! ### Path (App.js 631-648) -/

/-- `Path`: an ordered waypoint list plus a cursor, `nextPointIndex`,
starting at 0 (lines 631-636). -/
structure Path where
  points : List Vec2q
  nextPointIndex : Nat := 0
  deriving DecidableEq, Repr

/-- `Path.advance` (lines 637-639): increment the cursor. -/
def Path.advance (p : Path) : Path :=
  { p with nextPointIndex := p.nextPointIndex + 1 }

/-- `Path.getNextPoint` (lines 640-644): the indexed point while the cursor is
in range, otherwise `null`. -/
def Path.getNextPoint (p : Path) : Option Vec2q :=
  if h : p.nextPointIndex < p.points.length then
    some (p.points.get ⟨p.nextPointIndex, h⟩)
  else none

/-- `Path.nextPointIsDestination` (lines 645-647); JS `points.length - 1` can
be `-1`, so the comparison is over ℤ. -/
def Path.nextPointIsDestination (p : Path) : Bool :=
  (p.nextPointIndex : Int) ≥ (p.points.length : Int) - 1

/-! ### Tent state and counters (App.js 355-484) -/

namespace TentConsts

/-- Tent.MAX_DAMAGE = 1 (line 370). -/
def MAX_DAMAGE : Int := 1

/-- Tent.MAX_PISSINESS = 3 (line 371). -/
def MAX_PISSINESS : Int := 3

/-- Tent.UNUSUABLE_PISSINESS = 1 (line 372). -/
def UNUSUABLE_PISSINESS : Int := 1

end TentConsts

/-- Tent mutable state (lines 355-368): counters over ℤ (JS numbers used as
integers), flags as Bool; `intersectingPissArea` is modelled as the Boolean
presence of an intersecting piss area. -/
structure Tent where
  enabled : Bool := true
  pissiness : Int := 0
  damageTaken : Int := 0
  occupied : Bool := false
  captured : Bool := false
  intersectingPissArea : Bool := false
  deriving DecidableEq, Repr

/-- `Tent.isRuinedByPlayer` (lines 413-418). -/
def Tent.isRuinedByPlayer (t : Tent) : Bool :=
  t.pissiness ≥ TentConsts.MAX_PISSINESS || t.damageTaken ≥ TentConsts.MAX_DAMAGE

/-- `Tent.isUsable` (lines 420-428). -/
def Tent.isUsable (t : Tent) : Bool :=
  t.enabled && t.pissiness < TentConsts.UNUSUABLE_PISSINESS &&
    !t.isRuinedByPlayer && !t.occupied && !t.captured

/-- `Tent.canPissOn` (lines 437-445). -/
def Tent.canPissOn (t : Tent) : Bool :=
  t.enabled && t.pissiness < TentConsts.MAX_PISSINESS &&
    !t.isRuinedByPlayer && !t.occupied && !t.captured

/-- `Tent.doDamage` (lines 447-454); the sprite swap is rendering-only and
omitted. -/
def Tent.doDamage (t : Tent) : Tent :=
  if t.damageTaken < TentConsts.MAX_DAMAGE then
    { t with damageTaken := t.damageTaken + 1 }
  else t

/-- `Tent.pissOn` (lines 456-475); sound/particles are rendering-only and
omitted. -/
def Tent.pissOn (t : Tent) : Tent :=
  if t.pissiness < TentConsts.MAX_PISSINESS then
    { t with pissiness := t.pissiness + 1 }
  else t

/-- `Tent.occupy` (lines 481-483). -/
def Tent.occupy (t : Tent) : Tent := { t with occupied := true }

/-- `Tent.capture` (lines 477-479). -/
def Tent.capture (t : Tent) : Tent := { t with captured := true }

/-- First half of `Tent.update` (lines 397-404): consume the recorded
intersecting piss area and, while the tent can still be pissed on, run the
throttled `pissOn`; whether the throttle fires this frame is the Boolean
oracle `pissFires`. -/
def Tent.updatePissPhase (t : Tent) (pissFires : Bool) : Tent :=
  if t.intersectingPissArea then
    let t' := { t with intersectingPissArea := false }
    if t'.canPissOn && pissFires then t'.pissOn else t'
  else t

/-- Second half of `Tent.update` (lines 406-408): under the guard
`0 < pissiness < MAX_PISSINESS`, run the throttled drying decrement
(`this.pissiness--`, line 377); `dryFires` is the throttle oracle. -/
def Tent.updateDryPhase (t : Tent) (dryFires : Bool) : Tent :=
  if 0 < t.pissiness && t.pissiness < TentConsts.MAX_PISSINESS then
    (if dryFires then { t with pissiness := t.pissiness - 1 } else t)
  else t

/-- `Tent.update` (lines 396-411): the piss-area phase, then the drying
phase.  (The particle-system update is rendering-only and omitted.) -/
def Tent.update (t : Tent) (pissFires dryFires : Bool) : Tent :=
  (t.updatePissPhase pissFires).updateDryPhase dryFires

/-- The operations of claim C8 that touch the tent counters: `doDamage`,
`pissOn`, the collision pass recording an intersecting piss area (line 1944),
and `Tent.update` with its throttled drying decrement. -/
inductive TentOp
  | doDamage
  | pissOn
  | intersectPiss
  | update (pissFires dryFires : Bool)
  deriving DecidableEq, Repr

/-- Apply one tent operation. -/
def applyTentOp (t : Tent) : TentOp → Tent
  | .doDamage => t.doDamage
  | .pissOn => t.pissOn
  | .intersectPiss => { t with intersectingPissArea := true }
  | .update pf df => t.update pf df

/-- The counter bounds of claim C8. -/
def Tent.countersInBounds (t : Tent) : Prop :=
  0 ≤ t.pissiness ∧ t.pissiness ≤ TentConsts.MAX_PISSINESS ∧
  0 ≤ t.damageTaken ∧ t.damageTaken ≤ TentConsts.MAX_DAMAGE

instance (t : Tent) : Decidable t.countersInBounds := by
  unfold Tent.countersInBounds; infer_instance

/-! ### Character states and actors (App.js 650-720, 841-938) -/

/-- The behavior states an autonomous actor (`AIFestivalGoer`) can hold:
`IdleState` (line 666), `TargetSeekingState` (857), `FleeingState` (841).
Their `enter`/`exit` hooks are all the `CharacterState` no-ops
(lines 650-659). -/
inductive CharacterState
  | idle
  | targetSeeking
  | fleeing
  deriving DecidableEq, Repr

/-- `CharacterState.exit` (lines 657-659): a no-op on actor state for each of
the autonomous actor's states. -/
def stateExit (_s : CharacterState) (a : α) : α := a

/-- `CharacterState.enter` (lines 653-655): likewise a no-op. -/
def stateEnter (_s : CharacterState) (a : α) : α := a

/-- Actor state (`FestivalGoer`, lines 668-680): the target is held as the
target tent's id (JS holds the object reference; ids are unique), plus the
pathfinding fields and flags the claims mention. -/
structure Actor where
  id : Nat := 0
  enabled : Bool := true
  target : Option Nat := none
  pathfindingTargetPos : Option Vec2q := none
  path : Option Path := none
  isPathfinding : Bool := false
  stuck : Bool := false
  state : CharacterState := .idle
  deriving DecidableEq, Repr

/-- `FestivalGoer.transitionTo` (lines 710-714): exit the old state, swap the
reference, enter the new state. -/
def transitionTo (a : Actor) (next : CharacterState) : Actor :=
  stateEnter next { (stateExit a.state a) with state := next }

namespace FestivalGoer

/-- `FestivalGoer.clearTarget` (lines 716-720): null out target,
pathfindingTargetPos and path. -/
def clearTarget (a : Actor) : Actor :=
  { a with target := none, pathfindingTargetPos := none, path := none }

end FestivalGoer

namespace AIFestivalGoer

/-- `AIFestivalGoer.clearTarget` (lines 935-938): the base clearTarget, then a
transition to a fresh IdleState. -/
def clearTarget (a : Actor) : Actor :=
  transitionTo (FestivalGoer.clearTarget a) .idle

end AIFestivalGoer

/-- `AIFestivalGoer.enterTent` (lines 916-928): if the tent is no longer
usable, give up on it (clearTarget); otherwise disable the actor, occupy the
tent, and remove the actor from the world.  The returned Bool is true exactly
when the actor occupied the tent and was removed
(`game.removeWorldObject(this)`). -/
def enterTent (a : Actor) (t : Tent) : Actor × Tent × Bool :=
  if !t.isUsable then (AIFestivalGoer.clearTarget a, t, false)
  else ({ a with enabled := false }, t.occupy, true)

/-- One `Game._handleCollision` step for an autonomous actor overlapping the
tent with id `tid` (lines 1929-1940): enter only one's own current target;
a collision with a non-target tent merely sets the diagnostic `stuck` flag
(DEBUG_PATH_FOLLOWING_STUCK is true, line 39).  The accumulator carries the
tent, the actors still in the world (losers), and the actors removed after
occupying (winners). -/
def handleTentCollision (tid : Nat) (st : Tent × List Actor × List Actor)
    (a : Actor) : Tent × List Actor × List Actor :=
  let t := st.1
  let losers := st.2.1
  let winners := st.2.2
  if a.target = some tid then
    let r := enterTent a t
    if r.2.2 then (r.2.1, losers, winners ++ [r.1])
    else (r.2.1, losers ++ [r.1], winners)
  else (t, losers ++ [{ a with stuck := true }], winners)

/-- The same tick's collision pass restricted to the actors overlapping the
tent `tid` — `Game._detectCollisions` dispatches `_handleCollision` once per
overlapping (actor, tent) pair, in pass order. -/
def entryPass (tid : Nat) (t : Tent) (actors : List Actor) :
    Tent × List Actor × List Actor :=
  actors.foldl (handleTentCollision tid) (t, [], [])

/-! ### AI per-frame movement resolution (App.js 1013-1041) -/

/-- The movement-resolution step of `AIFestivalGoer.update` (lines 1022-1041)
for a nonzero movement vector: apply the move, look up the walkability of the
tile under the updated center (`toGridCoordsUnclamped`, `getGridTile`), and
revert the position when the lookup is null (off-grid) or UNWALKABLE.  `move`
is the velocity after `getMovementVelocity` scaling; `centerOff` is the
actor's centroid offset (`getCenter` = pos + bbox-derived offset, lines
239-252). -/
def aiMoveStep (g : TileGrid) (centerOff : Vec2q) (pos move : Vec2q) : Vec2q :=
  if move.x ≠ 0 ∨ move.y ≠ 0 then
    let lastPos := pos
    let posMoved := pos.add move
    let updatedCenter := posMoved.add centerOff
    let walkability := getGridTile g (toGridCoordsUnclamped updatedCenter)
    if walkability = none ∨ walkability = some UNWALKABLE then lastPos
    else posMoved
  else pos

/-! ### findPath result handling (App.js 806-832) -/

/-- The body of the easystar callback inside `FestivalGoer.findPath`
(lines 806-831), as a function of the delivered `gridPath` (null for failure)
and the actor's current `path`: a null or empty grid path is logged as a
pathfinding failure and leaves `path` untouched; otherwise the grid points are
mapped through `tileCenterFromGridCoords` into a fresh `Path`.  (The
`gridPath.length === 0 ? [targetPos] : ...` alternative inside the success
branch is kept from the source; it is unreachable because the empty case was
already diverted to the error branch.) -/
def findPathCallback (targetPos : Vec2q) (cur : Option Path)
    (gridPath : Option (List (Int × Int))) : Option Path :=
  match gridPath with
  | none => cur
  | some gp =>
    if gp.length = 0 then cur
    else
      some ⟨if gp.length = 0 then [targetPos]
            else gp.map tileCenterFromGridCoords, 0⟩

/-! ### removeWorldObject (App.js 1766-1774) -/

/-- A world object as far as identity bookkeeping is concerned: JS reference
identity is modelled through the unique monotonic id (`GameObject.maxId++`,
lines 217-218). -/
structure WObj where
  id : Nat
  deriving DecidableEq, Repr

/-- JS `Array.prototype.indexOf`: index of the first strictly-equal element,
-1 when absent. -/
def jsIndexOf : List WObj → WObj → Int
  | [], _ => -1
  | o :: rest, obj =>
    if o = obj then 0
    else
      let r := jsIndexOf rest obj
      if r = -1 then -1 else r + 1

/-- JS `Map.prototype.delete` on an id-keyed association list with unique
keys: drop the entry with the given key. -/
def mapDelete : List (Nat × WObj) → Nat → List (Nat × WObj)
  | [], _ => []
  | (k', v) :: rest, k => if k' = k then rest else (k', v) :: mapDelete rest k

/-- JS `Map.prototype.get`. -/
def mapLookup : List (Nat × WObj) → Nat → Option WObj
  | [], _ => none
  | (k', v) :: rest, k => if k' = k then some v else mapLookup rest k

/-- The world's object bookkeeping: `worldObjects` array and the id-indexed
`worldObjectsByID` map (lines 1740-1741). -/
structure WorldObjs where
  worldObjects : List WObj
  worldObjectsByID : List (Nat × WObj)
  deriving DecidableEq, Repr

/-- `Game.removeWorldObject` (lines 1766-1774): find the object's index; when
found, splice it out of `worldObjects` and delete its id from
`worldObjectsByID`; otherwise throw, leaving both untouched. -/
def removeWorldObject (w : WorldObjs) (obj : WObj) : Except String WorldObjs :=
  let index := jsIndexOf w.worldObjects obj
  if index > -1 then
    .ok { worldObjects := w.worldObjects.eraseIdx index.toNat,
          worldObjectsByID := mapDelete w.worldObjectsByID obj.id }
  else
    .error ("could not find obj id=" ++ toString obj.id ++ " in worldObjects")

/-! ### Capture / ownership engine (App.js 1745-1746, 1818-1837, 1952-2018) -/

/-- The ownership colors (`type TentGroup`, line 1675). -/
inductive TentGroup
  | red
  | green
  | blue
  deriving DecidableEq, Repr

/-- The world state the capture engine reads: the Tent entries of
`worldObjectsByID` (id-keyed; a non-tent or unknown id looks up as none) and
`tentAdjacencies` (line 1745), both as association lists. -/
structure CaptureWorld where
  tents : List (Nat × Tent)
  tentAdjacencies : List (Nat × List Nat)
  deriving Repr

/-- `Map.prototype.get` over the id-keyed tent entries. -/
def tentFind : List (Nat × Tent) → Nat → Option Tent
  | [], _ => none
  | p :: rest, tid => if p.1 = tid then some p.2 else tentFind rest tid

/-- `Map.prototype.get` over the id-keyed adjacency lists. -/
def adjFind : List (Nat × List Nat) → Nat → Option (List Nat)
  | [], _ => none
  | p :: rest, tid => if p.1 = tid then some p.2 else adjFind rest tid

/-- `worldObjectsByID.get(id)` followed by the `instanceof Tent` check
(lines 2003-2005). -/
def lookupTent (w : CaptureWorld) (tid : Nat) : Option Tent :=
  tentFind w.tents tid

/-- `tentAdjacencies.get(tent.id)` (line 1997). -/
def lookupAdj (w : CaptureWorld) (tid : Nat) : Option (List Nat) :=
  adjFind w.tentAdjacencies tid

/-- The adjacency ids actually traversed: a missing adjacency list is logged
and traversal returns, which visits nothing further — the same as an empty
list. -/
def adjOf (w : CaptureWorld) (tid : Nat) : List Nat :=
  (lookupAdj w tid).getD []

/-- The recursive `visit` closure of `Game._checkForTentGroup`
(lines 1987-2013), with the accumulator (visited list in insertion order,
containsOccupant flag) threaded explicitly and a recursion-depth fuel in
place of JS's unbounded call stack: if the tent is ruined, stop immediately
(without adding it); otherwise add it to visited, record occupancy, and fold
over its adjacency list, recursing into each adjacent id that is a Tent and
not yet visited.  Fuel bounds only the depth of nested visits; since each
nested visit first adds an unvisited tent, depth never exceeds the tent
count, and `checkForTentGroup` supplies fuel `tents.length + 1`, which the
lemmas below prove sufficient. -/
def visitGo (w : CaptureWorld) : Nat → Nat → List Nat × Bool → List Nat × Bool
  | 0, _, acc => acc
  | fuel + 1, tid, acc =>
    match lookupTent w tid with
    | none => acc
    | some t =>
      if t.isRuinedByPlayer then acc
      else
        (adjOf w tid).foldl
          (fun a aid =>
            match lookupTent w aid with
            | none => a
            | some _ => if aid ∈ a.1 then a else visitGo w fuel aid a)
          (acc.1 ++ [tid], acc.2 || t.occupied)

/-- The per-neighbor body of the adjacency fold inside `visitGo` (the loop at
lines 2002-2012), named for the proofs. -/
def visitStep (w : CaptureWorld) (fuel : Nat) (a : List Nat × Bool)
    (aid : Nat) : List Nat × Bool :=
  match lookupTent w aid with
  | none => a
  | some _ => if aid ∈ a.1 then a else visitGo w fuel aid a

/-- `Game._checkForTentGroup` (lines 1983-2018): run `visit` from the start
tent with an empty visited set. -/
def checkForTentGroup (w : CaptureWorld) (startId : Nat) : List Nat × Bool :=
  visitGo w (w.tents.length + 1) startId ([], false)

/-- The `tentGroups` map (line 1746), modelled by its lookup function. -/
def TGMap := Nat → Option TentGroup

/-- `tentGroups.set(id, color)`. -/
def tgSet (m : TGMap) (k : Nat) (v : TentGroup) : TGMap :=
  fun q => if q = k then some v else m q

/-- `tentGroups.clear()` / the empty map. -/
def tgEmpty : TGMap := fun _ => none

/-- `tent.captured = true` applied through the id-keyed world state. -/
def setCaptured (w : CaptureWorld) (tid : Nat) : CaptureWorld :=
  { w with tents := w.tents.map (fun p => if p.1 = tid then (p.1, p.2.capture) else p) }

/-- The mutable state `_findAndColorTentGroup` touches: the coloring map, the
tents' captured flags, and the player score. -/
structure ColorState where
  groups : TGMap
  world : CaptureWorld
  score : Int

/-- The body of the `visited.forEach` in `Game._findAndColorTentGroup`
(lines 1963-1980): green for a ruined tent; nothing when the group size
exceeds MAX_CAPTURABLE_TENT_GROUP; red when the group contains an occupant;
otherwise blue, a one-time +500 score on the not-yet-captured transition, and
the captured flag set.  (JS reads the tent object directly; here the visited
id is looked up in the current world — the none branch is unreachable because
visited ids always look up as tents.) -/
def colorStep (visited : List Nat) (containsOccupant : Bool)
    (st : ColorState) (tid : Nat) : ColorState :=
  match lookupTent st.world tid with
  | none => st
  | some t =>
    if t.isRuinedByPlayer then
      { st with groups := tgSet st.groups tid TentGroup.green }
    else if visited.length > MAX_CAPTURABLE_TENT_GROUP then st
    else if containsOccupant then
      { st with groups := tgSet st.groups tid TentGroup.red }
    else
      { groups := tgSet st.groups tid TentGroup.blue,
        world := setCaptured st.world tid,
        score := st.score + (if !t.captured then 500 else 0) }

/-- `Game._findAndColorTentGroup` (lines 1960-1981): flood from the start
tent, then color the visited set. -/
def findAndColorTentGroup (st : ColorState) (startId : Nat) : ColorState :=
  let vr := checkForTentGroup st.world startId
  vr.1.foldl (colorStep vr.1 vr.2) st

/-- `Game.checkForTentGroupsAdjacent` (lines 1952-1958): clear the coloring
map, then run `_findAndColorTentGroup` for every tent in world order.  (The
`start` parameter of the JS function is unused — the whole map is rebuilt.) -/
def checkForTentGroupsAdjacent (w : CaptureWorld) (score : Int) : ColorState :=
  (w.tents.map Prod.fst).foldl findAndColorTentGroup
    { groups := tgEmpty, world := w, score := score }

/-- Whether an id denotes a currently non-ruined tent of the world. -/
def isNRTent (w : CaptureWorld) (tid : Nat) : Bool :=
  match lookupTent w tid with
  | none => false
  | some t => !t.isRuinedByPlayer

/-- A ruin-free proximity path: every node on it (endpoints included) is a
non-ruined tent, and consecutive nodes are proximity-adjacent.  This is the
connectivity that flood-fill is allowed to use when ruined tents block
propagation. -/
inductive NRPath (w : CaptureWorld) : Nat → Nat → Prop
  | refl (a : Nat) : isNRTent w a = true → NRPath w a a
  | step {a b c : Nat} :
      NRPath w a b → c ∈ adjOf w b → isNRTent w c = true → NRPath w a c

/-- Two capture worlds that differ at most in some tents' `captured` flags
(the only world mutation `_findAndColorTentGroup` performs). -/
def SameButCaptured (w w' : CaptureWorld) : Prop :=
  w'.tentAdjacencies = w.tentAdjacencies ∧
  ∀ x, (lookupTent w x = none ∧ lookupTent w' x = none) ∨
    ∃ t t', lookupTent w x = some t ∧ lookupTent w' x = some t' ∧
      t'.enabled = t.enabled ∧ t'.pissiness = t.pissiness ∧
      t'.damageTaken = t.damageTaken ∧ t'.occupied = t.occupied

/-- Example world for the C1 witness and counterexample: tent 0 is ruined by
maxed pissiness, tent 1 is usable, and the two are proximity-adjacent. -/
def ruinExWorld : CaptureWorld :=
  ⟨[(0, { pissiness := 3 }), (1, {})], [(0, [1]), (1, [0])]⟩

/-- Example world for the C3 witness: a chain of four usable tents
0 - 1 - 2 - 3 within proximity radius. -/
def chainExWorld : CaptureWorld :=
  ⟨[(0, {}), (1, {}), (2, {}), (3, {})],
   [(0, [1]), (1, [0, 2]), (2, [1, 3]), (3, [2])]⟩

/-! ### Theorems for C4, C6 -/

end Fyre

namespace Fyre

/-- C4. Walkability clamp: for every world position (arbitrary rational
coordinates, including positions far outside the grid), `toGridCoords` returns
a tile with x in [0, GRID_COLS-1] and y in [0, GRID_ROWS-1]; the rational
embedding is total, so the call never throws (the JS NaN guard cannot fire on
real-valued input). -/
theorem toGridCoords_clamped (pos : Vec2q) :
    0 ≤ (toGridCoords pos).1 ∧ (toGridCoords pos).1 ≤ GRID_COLS - 1 ∧
    0 ≤ (toGridCoords pos).2 ∧ (toGridCoords pos).2 ≤ GRID_ROWS - 1 := by
  unfold toGridCoords clamp GRID_COLS GRID_ROWS GRID_SUBDIV
  refine ⟨le_max_right _ _, ?_, le_max_right _ _, ?_⟩ <;>
    · simp only [max_le_iff]
      exact ⟨min_le_right _ _, by norm_num⟩

/-- C6. Path cursor monotonicity: `advance` strictly increases the cursor
(each call adds one, so `n` advances add `n`), and as soon as the cursor is at
or past `points.length`, `getNextPoint` is none — and conversely. -/
theorem path_cursor_monotone (p : Path) (n : Nat) :
    p.nextPointIndex < (Path.advance p).nextPointIndex ∧
    (Path.advance^[n] p).nextPointIndex = p.nextPointIndex + n ∧
    (p.points.length ≤ p.nextPointIndex ↔ p.getNextPoint = none) := by
  refine ⟨Nat.lt_succ_self _, ?_, ?_⟩
  · induction n generalizing p with
    | zero => rfl
    | succ k ih =>
      rw [Function.iterate_succ_apply, ih]
      simp [Path.advance]
      omega
  · unfold Path.getNextPoint
    constructor
    · intro h
      rw [dif_neg (by omega)]
    · intro h
      by_contra hlt
      rw [dif_pos (by omega)] at h
      exact Option.noConfusion h

/-! ### C8: tent counter bounds -/

theorem Tent.doDamage_bounds (t : Tent) (h : t.countersInBounds) :
    t.doDamage.countersInBounds := by
  obtain ⟨h1, h2, h3, h4⟩ := h
  unfold Tent.doDamage
  split_ifs with hd
  · refine ⟨?_, ?_, ?_, ?_⟩ <;> dsimp only <;> omega
  · exact ⟨h1, h2, h3, h4⟩

theorem Tent.pissOn_bounds (t : Tent) (h : t.countersInBounds) :
    t.pissOn.countersInBounds := by
  obtain ⟨h1, h2, h3, h4⟩ := h
  unfold Tent.pissOn
  split_ifs with hp
  · refine ⟨?_, ?_, ?_, ?_⟩ <;> dsimp only <;> omega
  · exact ⟨h1, h2, h3, h4⟩

theorem Tent.updatePissPhase_bounds (t : Tent) (pf : Bool)
    (h : t.countersInBounds) : (t.updatePissPhase pf).countersInBounds := by
  obtain ⟨h1, h2, h3, h4⟩ := h
  unfold Tent.updatePissPhase
  dsimp only
  split_ifs with hi hc
  · exact Tent.pissOn_bounds _ ⟨h1, h2, h3, h4⟩
  · exact ⟨h1, h2, h3, h4⟩
  · exact ⟨h1, h2, h3, h4⟩

theorem Tent.updateDryPhase_bounds (t : Tent) (df : Bool)
    (h : t.countersInBounds) : (t.updateDryPhase df).countersInBounds := by
  obtain ⟨h1, h2, h3, h4⟩ := h
  unfold Tent.updateDryPhase
  split_ifs with hg hd
  · rw [Bool.and_eq_true, decide_eq_true_eq, decide_eq_true_eq] at hg
    refine ⟨?_, ?_, ?_, ?_⟩ <;> dsimp only <;> omega
  · exact ⟨h1, h2, h3, h4⟩
  · exact ⟨h1, h2, h3, h4⟩

theorem applyTentOp_preserves_bounds (t : Tent) (op : TentOp)
    (h : t.countersInBounds) : (applyTentOp t op).countersInBounds := by
  cases op with
  | doDamage => exact Tent.doDamage_bounds t h
  | pissOn => exact Tent.pissOn_bounds t h
  | intersectPiss =>
    obtain ⟨h1, h2, h3, h4⟩ := h
    exact ⟨h1, h2, h3, h4⟩
  | update pf df =>
    exact Tent.updateDryPhase_bounds _ df (Tent.updatePissPhase_bounds t pf h)

/-- C8. Tent counter bounds invariant: starting from counters within
[0, MAX_PISSINESS] and [0, MAX_DAMAGE], any sequence of `doDamage`, `pissOn`,
piss-area intersection, and `Tent.update` (whose guard keeps the throttled
drying decrement from driving pissiness below zero) keeps both counters within
their bounds. -/
theorem tent_counters_in_bounds (t : Tent) (ops : List TentOp)
    (h : t.countersInBounds) :
    (ops.foldl applyTentOp t).countersInBounds := by
  induction ops generalizing t with
  | nil => exact h
  | cons op rest ih =>
    exact ih (applyTentOp t op) (applyTentOp_preserves_bounds t op h)

theorem tent_counters_in_bounds_witness :
    (List.foldl applyTentOp { pissiness := 2, damageTaken := 0 }
      [TentOp.pissOn, TentOp.pissOn, TentOp.update true true,
       TentOp.doDamage, TentOp.doDamage]).countersInBounds :=
  tent_counters_in_bounds { pissiness := 2, damageTaken := 0 }
    [TentOp.pissOn, TentOp.pissOn, TentOp.update true true,
     TentOp.doDamage, TentOp.doDamage] (by decide)

/-! ### C7: target/path coupling -/

/-- C7. Target/path coupling: both `FestivalGoer.clearTarget` and
`AIFestivalGoer.clearTarget` leave target, pathfindingTargetPos and path all
null, and the abandonment path — `enterTent` against a tent that is no longer
usable (e.g. occupied by another actor in the same tick) — goes through
clearTarget, so the same holds there (and the actor is not removed). -/
theorem clearTarget_clears_path (a : Actor) (t : Tent)
    (h : t.isUsable = false) :
    ((FestivalGoer.clearTarget a).target = none ∧
     (FestivalGoer.clearTarget a).pathfindingTargetPos = none ∧
     (FestivalGoer.clearTarget a).path = none) ∧
    ((AIFestivalGoer.clearTarget a).target = none ∧
     (AIFestivalGoer.clearTarget a).pathfindingTargetPos = none ∧
     (AIFestivalGoer.clearTarget a).path = none ∧
     (AIFestivalGoer.clearTarget a).state = CharacterState.idle) ∧
    ((enterTent a t).1.target = none ∧
     (enterTent a t).1.pathfindingTargetPos = none ∧
     (enterTent a t).1.path = none ∧
     (enterTent a t).2.2 = false) := by
  refine ⟨⟨rfl, rfl, rfl⟩, ⟨rfl, rfl, rfl, rfl⟩, ?_⟩
  unfold enterTent
  rw [h]
  exact ⟨rfl, rfl, rfl, rfl⟩

theorem clearTarget_clears_path_witness :
    ((FestivalGoer.clearTarget { target := some 7, path := some ⟨[], 0⟩ }).target = none ∧
     (FestivalGoer.clearTarget { target := some 7, path := some ⟨[], 0⟩ }).pathfindingTargetPos = none ∧
     (FestivalGoer.clearTarget { target := some 7, path := some ⟨[], 0⟩ }).path = none) ∧
    ((AIFestivalGoer.clearTarget { target := some 7, path := some ⟨[], 0⟩ }).target = none ∧
     (AIFestivalGoer.clearTarget { target := some 7, path := some ⟨[], 0⟩ }).pathfindingTargetPos = none ∧
     (AIFestivalGoer.clearTarget { target := some 7, path := some ⟨[], 0⟩ }).path = none ∧
     (AIFestivalGoer.clearTarget { target := some 7, path := some ⟨[], 0⟩ }).state = CharacterState.idle) ∧
    ((enterTent { target := some 7, path := some ⟨[], 0⟩ } { occupied := true }).1.target = none ∧
     (enterTent { target := some 7, path := some ⟨[], 0⟩ } { occupied := true }).1.pathfindingTargetPos = none ∧
     (enterTent { target := some 7, path := some ⟨[], 0⟩ } { occupied := true }).1.path = none ∧
     (enterTent { target := some 7, path := some ⟨[], 0⟩ } { occupied := true }).2.2 = false) :=
  clearTarget_clears_path { target := some 7, path := some ⟨[], 0⟩ }
    { occupied := true } (by decide)

/-! ### C2: entry race -/

theorem Tent.occupied_of_not_usable (t : Tent) (h : t.occupied = true) :
    t.isUsable = false := by
  simp [Tent.isUsable, h]

theorem entryPass_go (tid : Nat) (actors : List Actor) :
    ∀ (t : Tent) (losers winners : List Actor),
      (∀ a ∈ actors, a.target = some tid) →
      winners.length ≤ 1 →
      (winners ≠ [] → t.occupied = true) →
      (∀ a ∈ losers, a.target = none ∧ a.state = CharacterState.idle) →
      (actors.foldl (handleTentCollision tid) (t, losers, winners)).2.2.length ≤ 1 ∧
      (∀ a ∈ (actors.foldl (handleTentCollision tid) (t, losers, winners)).2.1,
        a.target = none ∧ a.state = CharacterState.idle) := by
  induction actors with
  | nil =>
    intro t losers winners _ hw _ hl
    exact ⟨hw, hl⟩
  | cons a rest ih =>
    intro t losers winners htarg hw hocc hl
    have ha : a.target = some tid := htarg a (List.mem_cons_self a rest)
    have hrest : ∀ x ∈ rest, x.target = some tid :=
      fun x hx => htarg x (List.mem_cons_of_mem a hx)
    rw [List.foldl_cons]
    by_cases hu : t.isUsable = true
    · -- the tent is still usable: this actor occupies it and is removed
      have hoccf : t.occupied = false := by
        by_contra hc
        rw [Tent.occupied_of_not_usable t (by simpa using hc)] at hu
        exact Bool.noConfusion hu
      have hwin : winners = [] := by
        by_contra hne
        rw [hocc hne] at hoccf
        exact Bool.noConfusion hoccf
      have hstep : handleTentCollision tid (t, losers, winners) a =
          (t.occupy, losers, winners ++ [{ a with enabled := false }]) := by
        simp [handleTentCollision, enterTent, ha, hu]
      rw [hstep, hwin]
      exact ih t.occupy losers [{ a with enabled := false }] hrest
        (by simp) (fun _ => rfl) hl
    · -- the tent is not usable: the actor gives up and clears its target
      have hu' : t.isUsable = false := by
        cases hv : t.isUsable
        · rfl
        · exact absurd hv hu
      have hstep : handleTentCollision tid (t, losers, winners) a =
          (t, losers ++ [AIFestivalGoer.clearTarget a], winners) := by
        simp [handleTentCollision, enterTent, ha, hu']
      rw [hstep]
      refine ih t (losers ++ [AIFestivalGoer.clearTarget a]) winners hrest hw hocc ?_
      intro x hx
      rcases List.mem_append.mp hx with hx | hx
      · exact hl x hx
      · rcases List.mem_singleton.mp hx with rfl
        exact ⟨rfl, rfl⟩

/-- C2. Entry race safety: over one tick's collision pass, if every actor
colliding with the tent holds it as its target, then at most one actor ends in
the removed/occupying set, and every remaining (losing) actor has its target
cleared and is back in the Idle state, ready to re-seek a new target. -/
theorem entry_race_at_most_one (tid : Nat) (t : Tent) (actors : List Actor)
    (h : ∀ a ∈ actors, a.target = some tid) :
    (entryPass tid t actors).2.2.length ≤ 1 ∧
    ∀ a ∈ (entryPass tid t actors).2.1,
      a.target = none ∧ a.state = CharacterState.idle :=
  entryPass_go tid actors t [] [] h (by simp) (fun hc => absurd rfl hc)
    (fun _ hx => absurd hx (List.not_mem_nil _))

theorem entry_race_at_most_one_witness :
    (entryPass 5 {} [{ id := 1, target := some 5 }, { id := 2, target := some 5 }]).2.2.length ≤ 1 ∧
    ∀ a ∈ (entryPass 5 {} [{ id := 1, target := some 5 }, { id := 2, target := some 5 }]).2.1,
      a.target = none ∧ a.state = CharacterState.idle :=
  entry_race_at_most_one 5 {}
    [{ id := 1, target := some 5 }, { id := 2, target := some 5 }] (by decide)

/-! ### C9: movement revert vs walkability -/

/-- C9. Per-frame movement resolution: with a nonzero movement vector, the
position is reverted exactly when the tile under the post-move center is
off-grid (null lookup) or UNWALKABLE; a tile marked AI_UNWALKABLE never blocks
the physical move (the move sticks), while the pathfinding search accepts
only WALKABLE tiles (`setAcceptableTiles([WALKABLE])`). -/
theorem ai_move_revert_iff (g : TileGrid) (off pos move : Vec2q)
    (hm : move.x ≠ 0 ∨ move.y ≠ 0) :
    (aiMoveStep g off pos move = pos ↔
      (getGridTile g (toGridCoordsUnclamped ((pos.add move).add off)) = none ∨
       getGridTile g (toGridCoordsUnclamped ((pos.add move).add off)) =
         some UNWALKABLE)) ∧
    (getGridTile g (toGridCoordsUnclamped ((pos.add move).add off)) =
        some AI_UNWALKABLE →
      aiMoveStep g off pos move = pos.add move) ∧
    (∀ v, v ∈ acceptableTiles ↔ v = WALKABLE) := by
  have hne : pos.add move ≠ pos := by
    intro hc
    have hx : pos.x + move.x = pos.x := by
      simpa [Vec2q.add] using congrArg Vec2q.x hc
    have hy : pos.y + move.y = pos.y := by
      simpa [Vec2q.add] using congrArg Vec2q.y hc
    rcases hm with h | h
    · exact h (by linarith)
    · exact h (by linarith)
  unfold aiMoveStep
  rw [if_pos hm]
  dsimp only
  refine ⟨?_, ?_, ?_⟩
  · split_ifs with hw
    · exact ⟨fun _ => hw, fun _ => rfl⟩
    · exact ⟨fun hc => absurd hc hne, fun hc => absurd hc hw⟩
  · intro hai
    rw [if_neg]
    rw [hai]
    rintro (hc | hc)
    · exact Option.noConfusion hc
    · rw [Option.some_inj] at hc
      exact absurd hc (by decide)
  · intro v
    simp [acceptableTiles, WALKABLE]

theorem ai_move_revert_iff_witness :
    ((aiMoveStep [[0]] ⟨0, 0⟩ ⟨20, 20⟩ ⟨64, 0⟩ = ⟨20, 20⟩ ↔
      (getGridTile [[0]] (toGridCoordsUnclamped ((Vec2q.add ⟨20, 20⟩ ⟨64, 0⟩).add ⟨0, 0⟩)) = none ∨
       getGridTile [[0]] (toGridCoordsUnclamped ((Vec2q.add ⟨20, 20⟩ ⟨64, 0⟩).add ⟨0, 0⟩)) =
         some UNWALKABLE)) ∧
    (getGridTile [[0]] (toGridCoordsUnclamped ((Vec2q.add ⟨20, 20⟩ ⟨64, 0⟩).add ⟨0, 0⟩)) =
        some AI_UNWALKABLE →
      aiMoveStep [[0]] ⟨0, 0⟩ ⟨20, 20⟩ ⟨64, 0⟩ = Vec2q.add ⟨20, 20⟩ ⟨64, 0⟩) ∧
    (∀ v, v ∈ acceptableTiles ↔ v = WALKABLE)) :=
  ai_move_revert_iff [[0]] ⟨0, 0⟩ ⟨20, 20⟩ ⟨64, 0⟩ (Or.inl (by norm_num))

/-! ### C5: degenerate path result (corrected) -/

theorem findPath_empty_counterexample :
    findPathCallback ⟨0, 0⟩ none (some []) = none ∧
    findPathCallback ⟨0, 0⟩ none (some []) ≠ some ⟨[⟨0, 0⟩], 0⟩ :=
  ⟨rfl, fun h => Option.noConfusion h⟩

/-- C5 amended: when the grid search delivers an empty waypoint sequence (or
fails with null), `findPath` reports a pathfinding failure and leaves the
actor's path exactly as it was — the single-waypoint `[targetPos]` fallback in
the success branch is unreachable because the empty case is diverted to the
error branch first.  A non-empty grid path is installed as a fresh path of
tile centers with cursor 0. -/
theorem findPath_empty_leaves_path (targetPos : Vec2q) (cur : Option Path)
    (gp : List (Int × Int)) :
    findPathCallback targetPos cur (some []) = cur ∧
    findPathCallback targetPos cur none = cur ∧
    (gp ≠ [] → findPathCallback targetPos cur (some gp) =
      some ⟨gp.map tileCenterFromGridCoords, 0⟩) := by
  refine ⟨rfl, rfl, ?_⟩
  intro hne
  simp [findPathCallback, List.length_eq_zero, hne]

/-! ### C10: removeWorldObject -/

theorem jsIndexOf_of_mem (obj : WObj) :
    ∀ l : List WObj, obj ∈ l →
      ∃ l1 l2, l = l1 ++ obj :: l2 ∧ obj ∉ l1 ∧
        jsIndexOf l obj = (l1.length : Int) ∧
        l.eraseIdx l1.length = l1 ++ l2 := by
  intro l
  induction l with
  | nil => intro h; exact absurd h (List.not_mem_nil _)
  | cons o rest ih =>
    intro h
    by_cases ho : o = obj
    · subst ho
      refine ⟨[], rest, rfl, List.not_mem_nil _, ?_, rfl⟩
      unfold jsIndexOf
      rw [if_pos rfl]
      simp
    · have hm : obj ∈ rest := by
        rcases List.mem_cons.mp h with h | h
        · exact absurd h.symm ho
        · exact h
      obtain ⟨l1, l2, heq, hnm, hidx, herase⟩ := ih hm
      refine ⟨o :: l1, l2, by rw [heq, List.cons_append], ?_, ?_, ?_⟩
      · intro hc
        rcases List.mem_cons.mp hc with hc | hc
        · exact ho hc.symm
        · exact hnm hc
      · unfold jsIndexOf
        rw [if_neg ho, hidx]
        have : ((l1.length : Int)) ≠ -1 := by omega
        rw [if_neg this]
        simp
      · rw [List.length_cons, List.eraseIdx_cons_succ, herase, List.cons_append]

theorem jsIndexOf_of_not_mem (obj : WObj) :
    ∀ l : List WObj, obj ∉ l → jsIndexOf l obj = -1 := by
  intro l
  induction l with
  | nil => intro _; rfl
  | cons o rest ih =>
    intro h
    unfold jsIndexOf
    rw [if_neg (fun hc => h (by rw [← hc]; exact List.mem_cons_self o rest)),
        ih (fun hc => h (List.mem_cons_of_mem o hc))]
    rfl

theorem mapLookup_eq_none_of_not_mem (k : Nat) :
    ∀ m : List (Nat × WObj), k ∉ m.map Prod.fst → mapLookup m k = none := by
  intro m
  induction m with
  | nil => intro _; rfl
  | cons p rest ih =>
    intro h
    obtain ⟨kp, v⟩ := p
    simp only [List.map_cons, List.mem_cons, not_or] at h
    unfold mapLookup
    rw [if_neg (fun hc => h.1 hc.symm)]
    exact ih h.2

theorem mapDelete_lookup_self (k : Nat) :
    ∀ m : List (Nat × WObj), (m.map Prod.fst).Nodup →
      mapLookup (mapDelete m k) k = none := by
  intro m
  induction m with
  | nil => intro _; rfl
  | cons p rest ih =>
    intro hnd
    obtain ⟨kp, v⟩ := p
    simp only [List.map_cons, List.nodup_cons] at hnd
    obtain ⟨hk, hrest⟩ := hnd
    unfold mapDelete
    by_cases hkk : kp = k
    · rw [if_pos hkk]
      exact mapLookup_eq_none_of_not_mem k rest (by rw [← hkk]; exact hk)
    · rw [if_neg hkk]
      unfold mapLookup
      rw [if_neg hkk]
      exact ih hrest

theorem mapDelete_lookup_other (k k' : Nat) (hne : k' ≠ k) :
    ∀ m : List (Nat × WObj),
      mapLookup (mapDelete m k) k' = mapLookup m k' := by
  intro m
  induction m with
  | nil => rfl
  | cons p rest ih =>
    obtain ⟨kp, v⟩ := p
    by_cases hkk : kp = k
    · simp only [mapDelete, if_pos hkk, mapLookup,
        if_neg (show ¬kp = k' by omega)]
    · simp only [mapDelete, if_neg hkk, mapLookup]
      by_cases hk' : kp = k'
      · rw [if_pos hk', if_pos hk']
      · rw [if_neg hk', if_neg hk']
        exact ih

/-- C10. removeWorldObject: when the object is present, the call succeeds,
splices exactly the (first-indexed) occurrence of the object out of
`worldObjects`, and deletes its id from `worldObjectsByID` (the id's entry is
gone, all other ids' entries untouched); when the object is absent, the call
throws, producing no modified world state (atomic failure). -/
theorem removeWorldObject_spec (w : WorldObjs) (obj : WObj)
    (hkeys : (w.worldObjectsByID.map Prod.fst).Nodup) :
    (obj ∈ w.worldObjects →
      ∃ l1 l2, w.worldObjects = l1 ++ obj :: l2 ∧ obj ∉ l1 ∧
        removeWorldObject w obj =
          Except.ok ⟨l1 ++ l2, mapDelete w.worldObjectsByID obj.id⟩ ∧
        mapLookup (mapDelete w.worldObjectsByID obj.id) obj.id = none ∧
        ∀ k, k ≠ obj.id →
          mapLookup (mapDelete w.worldObjectsByID obj.id) k =
            mapLookup w.worldObjectsByID k) ∧
    (obj ∉ w.worldObjects →
      removeWorldObject w obj =
        Except.error
          ("could not find obj id=" ++ toString obj.id ++ " in worldObjects")) := by
  constructor
  · intro hmem
    obtain ⟨l1, l2, heq, hnm, hidx, herase⟩ := jsIndexOf_of_mem obj w.worldObjects hmem
    refine ⟨l1, l2, heq, hnm, ?_,
      mapDelete_lookup_self obj.id w.worldObjectsByID hkeys,
      fun k hk => mapDelete_lookup_other obj.id k hk w.worldObjectsByID⟩
    unfold removeWorldObject
    rw [hidx, if_pos (by omega)]
    rw [show ((l1.length : Int)).toNat = l1.length from rfl, herase]
  · intro hnmem
    unfold removeWorldObject
    rw [jsIndexOf_of_not_mem obj w.worldObjects hnmem]
    rfl

theorem removeWorldObject_spec_witness :
    ((⟨3⟩ : WObj) ∈ (⟨[⟨3⟩, ⟨4⟩], [(3, ⟨3⟩), (4, ⟨4⟩)]⟩ : WorldObjs).worldObjects →
      ∃ l1 l2,
        (⟨[⟨3⟩, ⟨4⟩], [(3, ⟨3⟩), (4, ⟨4⟩)]⟩ : WorldObjs).worldObjects = l1 ++ (⟨3⟩ : WObj) :: l2 ∧
        (⟨3⟩ : WObj) ∉ l1 ∧
        removeWorldObject ⟨[⟨3⟩, ⟨4⟩], [(3, ⟨3⟩), (4, ⟨4⟩)]⟩ ⟨3⟩ =
          Except.ok ⟨l1 ++ l2, mapDelete [(3, ⟨3⟩), (4, ⟨4⟩)] 3⟩ ∧
        mapLookup (mapDelete [(3, ⟨3⟩), (4, ⟨4⟩)] 3) 3 = none ∧
        ∀ k, k ≠ 3 →
          mapLookup (mapDelete [(3, ⟨3⟩), (4, ⟨4⟩)] 3) k =
            mapLookup [(3, ⟨3⟩), (4, ⟨4⟩)] k) ∧
    ((⟨3⟩ : WObj) ∉ (⟨[⟨3⟩, ⟨4⟩], [(3, ⟨3⟩), (4, ⟨4⟩)]⟩ : WorldObjs).worldObjects →
      removeWorldObject ⟨[⟨3⟩, ⟨4⟩], [(3, ⟨3⟩), (4, ⟨4⟩)]⟩ ⟨3⟩ =
        Except.error ("could not find obj id=" ++ toString (3 : Nat) ++ " in worldObjects")) :=
  removeWorldObject_spec ⟨[⟨3⟩, ⟨4⟩], [(3, ⟨3⟩), (4, ⟨4⟩)]⟩ ⟨3⟩ (by decide)

/-! ### Capture engine: flood-fill lemmas -/

theorem visitGo_succ (w : CaptureWorld) (fuel tid : Nat)
    (acc : List Nat × Bool) :
    visitGo w (fuel + 1) tid acc =
      match lookupTent w tid with
      | none => acc
      | some t =>
        if t.isRuinedByPlayer then acc
        else (adjOf w tid).foldl (visitStep w fuel)
          (acc.1 ++ [tid], acc.2 || t.occupied) := rfl

theorem NRPath_trans {w : CaptureWorld} {a b c : Nat}
    (hab : NRPath w a b) (hbc : NRPath w b c) : NRPath w a c := by
  induction hbc with
  | refl _ => exact hab
  | step _ hadj hnr ih => exact NRPath.step ih hadj hnr

theorem NRPath_startNR {w : CaptureWorld} {a b : Nat} (h : NRPath w a b) :
    isNRTent w a = true := by
  induction h with
  | refl h => exact h
  | step _ _ _ ih => exact ih

theorem NRPath_endNR {w : CaptureWorld} {a b : Nat} (h : NRPath w a b) :
    isNRTent w b = true := by
  cases h with
  | refl h => exact h
  | step _ _ hnr => exact hnr

theorem isNRTent_isSome {w : CaptureWorld} {x : Nat}
    (h : isNRTent w x = true) : (lookupTent w x).isSome = true := by
  unfold isNRTent at h
  cases hl : lookupTent w x with
  | none => rw [hl] at h; exact Bool.noConfusion h
  | some t => rfl

theorem visitFold_mono (w : CaptureWorld) (fuel : Nat)
    (ihgo : ∀ tid acc, ∃ ext, (visitGo w fuel tid acc).1 = acc.1 ++ ext) :
    ∀ (l : List Nat) (acc : List Nat × Bool),
      ∃ ext, (l.foldl (visitStep w fuel) acc).1 = acc.1 ++ ext := by
  intro l
  induction l with
  | nil => intro acc; exact ⟨[], (List.append_nil _).symm⟩
  | cons aid rest ih =>
    intro acc
    rw [List.foldl_cons]
    have hstep : ∃ e, (visitStep w fuel acc aid).1 = acc.1 ++ e := by
      unfold visitStep
      cases lookupTent w aid with
      | none => exact ⟨[], (List.append_nil _).symm⟩
      | some _ =>
        dsimp only
        split_ifs with hmem
        · exact ⟨[], (List.append_nil _).symm⟩
        · exact ihgo aid acc
    obtain ⟨e1, he1⟩ := hstep
    obtain ⟨e2, he2⟩ := ih (visitStep w fuel acc aid)
    exact ⟨e1 ++ e2, by rw [he2, he1, List.append_assoc]⟩

theorem visitGo_mono (w : CaptureWorld) :
    ∀ (fuel tid : Nat) (acc : List Nat × Bool),
      ∃ ext, (visitGo w fuel tid acc).1 = acc.1 ++ ext := by
  intro fuel
  induction fuel with
  | zero => intro tid acc; exact ⟨[], (List.append_nil _).symm⟩
  | succ fuel ih =>
    intro tid acc
    rw [visitGo_succ]
    cases lookupTent w tid with
    | none => exact ⟨[], (List.append_nil _).symm⟩
    | some t =>
      dsimp only
      split_ifs with hr
      · exact ⟨[], (List.append_nil _).symm⟩
      · obtain ⟨e, he⟩ := visitFold_mono w fuel ih (adjOf w tid)
          (acc.1 ++ [tid], acc.2 || t.occupied)
        exact ⟨tid :: e, by rw [he]; simp⟩

theorem visitGo_mono_mem (w : CaptureWorld) (fuel tid : Nat)
    (acc : List Nat × Bool) {x : Nat} (hx : x ∈ acc.1) :
    x ∈ (visitGo w fuel tid acc).1 := by
  obtain ⟨e, he⟩ := visitGo_mono w fuel tid acc
  rw [he]
  exact List.mem_append_left _ hx

theorem visitFold_mono_mem (w : CaptureWorld) (fuel : Nat) (l : List Nat)
    (acc : List Nat × Bool) {x : Nat} (hx : x ∈ acc.1) :
    x ∈ (l.foldl (visitStep w fuel) acc).1 := by
  obtain ⟨e, he⟩ := visitFold_mono w fuel (visitGo_mono w fuel) l acc
  rw [he]
  exact List.mem_append_left _ hx

theorem visitFold_sound (w : CaptureWorld) (fuel : Nat)
    (ihgo : ∀ tid acc x, x ∈ (visitGo w fuel tid acc).1 →
      x ∈ acc.1 ∨ NRPath w tid x) :
    ∀ (l : List Nat) (acc : List Nat × Bool) (x : Nat),
      x ∈ (l.foldl (visitStep w fuel) acc).1 →
      x ∈ acc.1 ∨ ∃ aid ∈ l, NRPath w aid x := by
  intro l
  induction l with
  | nil => intro acc x hx; exact Or.inl hx
  | cons aid rest ih =>
    intro acc x hx
    rw [List.foldl_cons] at hx
    rcases ih (visitStep w fuel acc aid) x hx with hx1 | ⟨a, ha, hp⟩
    · -- x was already present after the first neighbor's step
      have : x ∈ acc.1 ∨ NRPath w aid x := by
        unfold visitStep at hx1
        cases hl : lookupTent w aid with
        | none => rw [hl] at hx1; exact Or.inl hx1
        | some _ =>
          rw [hl] at hx1
          dsimp only at hx1
          split_ifs at hx1 with hmem
          · exact Or.inl hx1
          · exact ihgo aid acc x hx1
      rcases this with h | h
      · exact Or.inl h
      · exact Or.inr ⟨aid, List.mem_cons_self _ _, h⟩
    · exact Or.inr ⟨a, List.mem_cons_of_mem _ ha, hp⟩

theorem visitGo_sound (w : CaptureWorld) :
    ∀ (fuel tid : Nat) (acc : List Nat × Bool) (x : Nat),
      x ∈ (visitGo w fuel tid acc).1 → x ∈ acc.1 ∨ NRPath w tid x := by
  intro fuel
  induction fuel with
  | zero => intro tid acc x hx; exact Or.inl hx
  | succ fuel ih =>
    intro tid acc x hx
    rw [visitGo_succ] at hx
    cases htid : lookupTent w tid with
    | none => rw [htid] at hx; exact Or.inl hx
    | some t =>
      rw [htid] at hx
      dsimp only at hx
      split_ifs at hx with hr
      · exact Or.inl hx
      · have hrf : t.isRuinedByPlayer = false := by
          cases hv : t.isRuinedByPlayer
          · rfl
          · exact absurd hv hr
        have htidNR : isNRTent w tid = true := by
          simp [isNRTent, htid, hrf]
        rcases visitFold_sound w fuel ih (adjOf w tid)
            (acc.1 ++ [tid], acc.2 || t.occupied) x hx with h1 | ⟨aid, hadj, hp⟩
        · rcases List.mem_append.mp h1 with h | h
          · exact Or.inl h
          · rcases List.mem_singleton.mp h with rfl
            exact Or.inr (NRPath.refl x htidNR)
        · exact Or.inr (NRPath_trans
            (NRPath.step (NRPath.refl tid htidNR) hadj (NRPath_startNR hp)) hp)

theorem visitFold_nodup (w : CaptureWorld) (fuel : Nat)
    (ihgo : ∀ tid acc, acc.1.Nodup → tid ∉ acc.1 →
      (visitGo w fuel tid acc).1.Nodup) :
    ∀ (l : List Nat) (acc : List Nat × Bool), acc.1.Nodup →
      (l.foldl (visitStep w fuel) acc).1.Nodup := by
  intro l
  induction l with
  | nil => intro acc h; exact h
  | cons aid rest ih =>
    intro acc hnd
    rw [List.foldl_cons]
    refine ih (visitStep w fuel acc aid) ?_
    unfold visitStep
    cases lookupTent w aid with
    | none => exact hnd
    | some _ =>
      dsimp only
      split_ifs with hmem
      · exact hnd
      · exact ihgo aid acc hnd hmem

theorem visitGo_nodup (w : CaptureWorld) :
    ∀ (fuel tid : Nat) (acc : List Nat × Bool), acc.1.Nodup →
      tid ∉ acc.1 → (visitGo w fuel tid acc).1.Nodup := by
  intro fuel
  induction fuel with
  | zero => intro tid acc h _; exact h
  | succ fuel ih =>
    intro tid acc hnd htid
    rw [visitGo_succ]
    cases lookupTent w tid with
    | none => exact hnd
    | some t =>
      dsimp only
      split_ifs with hr
      · exact hnd
      · refine visitFold_nodup w fuel ih (adjOf w tid)
          (acc.1 ++ [tid], acc.2 || t.occupied) ?_
        simp [List.nodup_append, hnd, htid]

theorem tentFind_isSome_mem (x : Nat) :
    ∀ l : List (Nat × Tent), (tentFind l x).isSome = true →
      x ∈ l.map Prod.fst := by
  intro l
  induction l with
  | nil => intro h; exact Bool.noConfusion h
  | cons p rest ih =>
    intro h
    rw [List.map_cons]
    by_cases hp : p.1 = x
    · rw [← hp]
      exact List.mem_cons_self p.1 _
    · refine List.mem_cons_of_mem _ (ih ?_)
      unfold tentFind at h
      rw [if_neg hp] at h
      exact h

theorem lookupTent_isSome_mem_keys (w : CaptureWorld) (x : Nat)
    (h : (lookupTent w x).isSome = true) : x ∈ w.tents.map Prod.fst :=
  tentFind_isSome_mem x w.tents h

theorem nodup_keys_length_le (w : CaptureWorld) (l : List Nat)
    (hnd : l.Nodup) (hs : ∀ x ∈ l, (lookupTent w x).isSome = true) :
    l.length ≤ w.tents.length := by
  have h1 : l.length = l.toFinset.card := (List.toFinset_card_of_nodup hnd).symm
  have h2 : l.toFinset ⊆ (w.tents.map Prod.fst).toFinset := by
    intro x hx
    rw [List.mem_toFinset] at hx
    rw [List.mem_toFinset]
    exact lookupTent_isSome_mem_keys w x (hs x hx)
  have h3 := Finset.card_le_card h2
  have h4 := List.toFinset_card_le (w.tents.map Prod.fst)
  have h5 : (w.tents.map Prod.fst).length = w.tents.length :=
    List.length_map _ _
  omega

theorem visitStep_cases (w : CaptureWorld) (fuel : Nat)
    (acc : List Nat × Bool) (aid : Nat) :
    visitStep w fuel acc aid = acc ∨
    ((lookupTent w aid).isSome = true ∧ aid ∉ acc.1 ∧
      visitStep w fuel acc aid = visitGo w fuel aid acc) := by
  unfold visitStep
  cases hl : lookupTent w aid with
  | none => exact Or.inl rfl
  | some t =>
    dsimp only
    split_ifs with hmem
    · exact Or.inl rfl
    · exact Or.inr ⟨rfl, hmem, rfl⟩

theorem visitFold_complete (w : CaptureWorld) (fuel : Nat)
    (ihgo : ∀ tid acc, acc.1.Nodup →
      (∀ x ∈ acc.1, (lookupTent w x).isSome = true) →
      tid ∉ acc.1 → w.tents.length + 1 ≤ fuel + acc.1.length →
      (isNRTent w tid = true → tid ∈ (visitGo w fuel tid acc).1) ∧
      (∀ b ∈ (visitGo w fuel tid acc).1, b ∉ acc.1 →
        ∀ c ∈ adjOf w b, isNRTent w c = true →
          c ∈ (visitGo w fuel tid acc).1)) :
    ∀ (l : List Nat) (acc : List Nat × Bool),
      acc.1.Nodup → (∀ x ∈ acc.1, (lookupTent w x).isSome = true) →
      w.tents.length + 1 ≤ fuel + acc.1.length →
      (∀ aid ∈ l, isNRTent w aid = true →
        aid ∈ (l.foldl (visitStep w fuel) acc).1) ∧
      (∀ b ∈ (l.foldl (visitStep w fuel) acc).1, b ∉ acc.1 →
        ∀ c ∈ adjOf w b, isNRTent w c = true →
          c ∈ (l.foldl (visitStep w fuel) acc).1) := by
  intro l
  induction l with
  | nil =>
    intro acc _ _ _
    exact ⟨fun aid ha => absurd ha (List.not_mem_nil _),
      fun b hb hnb => absurd hb hnb⟩
  | cons aid rest ih =>
    intro acc hnd hsome hbud
    rw [List.foldl_cons]
    -- properties of the state after the first neighbor's step
    have hnd1 : (visitStep w fuel acc aid).1.Nodup := by
      rcases visitStep_cases w fuel acc aid with he | ⟨_, hm, he⟩
      · rw [he]; exact hnd
      · rw [he]; exact visitGo_nodup w fuel aid acc hnd hm
    have hsub1 : ∀ x ∈ acc.1, x ∈ (visitStep w fuel acc aid).1 := by
      intro x hx
      rcases visitStep_cases w fuel acc aid with he | ⟨_, _, he⟩
      · rw [he]; exact hx
      · rw [he]; exact visitGo_mono_mem w fuel aid acc hx
    have hsome1 : ∀ x ∈ (visitStep w fuel acc aid).1,
        (lookupTent w x).isSome = true := by
      intro x hx
      rcases visitStep_cases w fuel acc aid with he | ⟨_, _, he⟩
      · rw [he] at hx; exact hsome x hx
      · rw [he] at hx
        rcases visitGo_sound w fuel aid acc x hx with h | h
        · exact hsome x h
        · exact isNRTent_isSome (NRPath_endNR h)
    have hbud1 : w.tents.length + 1 ≤ fuel + (visitStep w fuel acc aid).1.length := by
      rcases visitStep_cases w fuel acc aid with he | ⟨_, _, he⟩
      · rw [he]; exact hbud
      · rw [he]
        obtain ⟨e, hee⟩ := visitGo_mono w fuel aid acc
        rw [hee, List.length_append]
        omega
    obtain ⟨covR, closR⟩ := ih (visitStep w fuel acc aid) hnd1 hsome1 hbud1
    have hsubF : ∀ x ∈ (visitStep w fuel acc aid).1,
        x ∈ (rest.foldl (visitStep w fuel) (visitStep w fuel acc aid)).1 :=
      fun x hx => visitFold_mono_mem w fuel rest _ hx
    constructor
    · intro a ha hNRa
      rcases List.mem_cons.mp ha with rfl | ha
      · -- the head neighbor itself ends up visited
        refine hsubF a ?_
        rcases visitStep_cases w fuel acc a with he | ⟨_, hm, he⟩
        · -- the step was a no-op: only possible because a was already visited
          rw [he]
          unfold visitStep at he
          cases hl : lookupTent w a with
          | none =>
            exact absurd hl (by
              intro hc
              have := isNRTent_isSome hNRa
              rw [hc] at this
              exact Bool.noConfusion this)
          | some t =>
            rw [hl] at he
            dsimp only at he
            by_cases hmem : a ∈ acc.1
            · exact hmem
            · rw [if_neg hmem] at he
              have hin := (ihgo a acc hnd hsome hmem hbud).1 hNRa
              rw [he] at hin
              exact hin
        · rw [he]
          exact (ihgo a acc hnd hsome hm hbud).1 hNRa
      · exact covR a ha hNRa
    · intro b hb hnb c hc hNRc
      by_cases hb1 : b ∈ (visitStep w fuel acc aid).1
      · -- b was added by the head neighbor's step: use its closure
        refine hsubF c ?_
        rcases visitStep_cases w fuel acc aid with he | ⟨_, hm, he⟩
        · rw [he] at hb1; exact absurd hb1 hnb
        · rw [he] at hb1 ⊢
          exact (ihgo aid acc hnd hsome hm hbud).2 b hb1 hnb c hc hNRc
      · exact closR b hb hb1 c hc hNRc

theorem visitGo_complete (w : CaptureWorld) :
    ∀ (fuel tid : Nat) (acc : List Nat × Bool),
      acc.1.Nodup → (∀ x ∈ acc.1, (lookupTent w x).isSome = true) →
      tid ∉ acc.1 → w.tents.length + 1 ≤ fuel + acc.1.length →
      (isNRTent w tid = true → tid ∈ (visitGo w fuel tid acc).1) ∧
      (∀ b ∈ (visitGo w fuel tid acc).1, b ∉ acc.1 →
        ∀ c ∈ adjOf w b, isNRTent w c = true →
          c ∈ (visitGo w fuel tid acc).1) := by
  intro fuel
  induction fuel with
  | zero =>
    intro tid acc hnd hsome _ hbud
    have hle := nodup_keys_length_le w acc.1 hnd hsome
    exact absurd hbud (by omega)
  | succ fuel ih =>
    intro tid acc hnd hsome htid hbud
    rw [visitGo_succ]
    cases htl : lookupTent w tid with
    | none =>
      dsimp only
      refine ⟨?_, fun b hb hnb => absurd hb hnb⟩
      intro hNR
      unfold isNRTent at hNR
      rw [htl] at hNR
      exact Bool.noConfusion hNR
    | some t =>
      dsimp only
      split_ifs with hr
      · refine ⟨?_, fun b hb hnb => absurd hb hnb⟩
        intro hNR
        unfold isNRTent at hNR
        rw [htl] at hNR
        dsimp only at hNR
        rw [hr] at hNR
        exact Bool.noConfusion hNR
      · -- the tent is visited; its neighbors are handled by the fold
        have hnd' : (acc.1 ++ [tid]).Nodup := by
          simp [List.nodup_append, hnd, htid]
        have hsome' : ∀ x ∈ acc.1 ++ [tid], (lookupTent w x).isSome = true := by
          intro x hx
          rcases List.mem_append.mp hx with h | h
          · exact hsome x h
          · rcases List.mem_singleton.mp h with rfl
            rw [htl]; rfl
        have hbud' : w.tents.length + 1 ≤ fuel + (acc.1 ++ [tid]).length := by
          rw [List.length_append]
          simp only [List.length_singleton]
          omega
        obtain ⟨covF, closF⟩ := visitFold_complete w fuel ih (adjOf w tid)
          (acc.1 ++ [tid], acc.2 || t.occupied) hnd' hsome' hbud'
        have htidIn : tid ∈ ((adjOf w tid).foldl (visitStep w fuel)
            (acc.1 ++ [tid], acc.2 || t.occupied)).1 :=
          visitFold_mono_mem w fuel _ _
            (List.mem_append_right _ (List.mem_singleton_self tid))
        refine ⟨fun _ => htidIn, ?_⟩
        intro b hb hnb c hc hNRc
        by_cases hb' : b ∈ acc.1 ++ [tid]
        · rcases List.mem_append.mp hb' with h | h
          · exact absurd h hnb
          · rcases List.mem_singleton.mp h with rfl
            exact covF c hc hNRc
        · exact closF b hb hb' c hc hNRc

/-! ### Capture engine: the captured flag is the only world mutation -/

theorem tentFind_setCaptured (tid x : Nat) :
    ∀ l : List (Nat × Tent),
      tentFind (l.map (fun p => if p.1 = tid then (p.1, p.2.capture) else p)) x =
        (tentFind l x).map (fun t => if x = tid then t.capture else t) := by
  intro l
  induction l with
  | nil => rfl
  | cons p rest ih =>
    rw [List.map_cons]
    by_cases hx : p.1 = x
    · by_cases ht : p.1 = tid
      · have hxt : x = tid := by omega
        simp [tentFind, hx, ht, hxt]
      · have hxt : ¬x = tid := by omega
        simp [tentFind, hx, ht, hxt]
    · by_cases ht : p.1 = tid
      · simp only [if_pos ht]
        unfold tentFind
        rw [if_neg (show ¬(p.1 = x) from hx), if_neg hx]
        exact ih
      · simp only [if_neg ht]
        unfold tentFind
        rw [if_neg hx, if_neg hx]
        exact ih

theorem lookupTent_setCaptured (w : CaptureWorld) (tid x : Nat) :
    lookupTent (setCaptured w tid) x =
      (lookupTent w x).map (fun t => if x = tid then t.capture else t) :=
  tentFind_setCaptured tid x w.tents

theorem SameButCaptured_refl (w : CaptureWorld) : SameButCaptured w w := by
  refine ⟨rfl, fun x => ?_⟩
  cases h : lookupTent w x with
  | none => exact Or.inl ⟨rfl, rfl⟩
  | some t => exact Or.inr ⟨t, t, rfl, rfl, rfl, rfl, rfl, rfl⟩

theorem SameButCaptured_setCaptured (w w' : CaptureWorld) (tid : Nat)
    (h : SameButCaptured w w') : SameButCaptured w (setCaptured w' tid) := by
  obtain ⟨hadj, hl⟩ := h
  refine ⟨hadj, fun x => ?_⟩
  rw [lookupTent_setCaptured]
  rcases hl x with ⟨h1, h2⟩ | ⟨t, t', h1, h2, he, hp, hd, ho⟩
  · rw [h2]; exact Or.inl ⟨h1, rfl⟩
  · rw [h2]
    refine Or.inr ⟨t, if x = tid then t'.capture else t', h1, rfl, ?_, ?_, ?_, ?_⟩ <;>
      · split_ifs <;> simp [Tent.capture, he, hp, hd, ho]

theorem SBC_isNRTent {w w' : CaptureWorld} (h : SameButCaptured w w')
    (x : Nat) : isNRTent w' x = isNRTent w x := by
  rcases h.2 x with ⟨h1, h2⟩ | ⟨t, t', h1, h2, _, hp, hd, _⟩
  · unfold isNRTent; rw [h1, h2]
  · unfold isNRTent
    rw [h1, h2]
    dsimp only
    unfold Tent.isRuinedByPlayer
    rw [hp, hd]

theorem SBC_adjOf {w w' : CaptureWorld} (h : SameButCaptured w w') (x : Nat) :
    adjOf w' x = adjOf w x := by
  unfold adjOf lookupAdj
  rw [h.1]

/-! ### Capture engine: the coloring fold never touches a protected id -/

theorem colorFold_preserve (w : CaptureWorld) (x : Nat)
    (visitedFull : List Nat) (co : Bool) :
    ∀ (l : List Nat) (st : ColorState),
      SameButCaptured w st.world →
      st.groups x = none →
      (x ∈ l → (isNRTent w x = true ∧
        MAX_CAPTURABLE_TENT_GROUP < visitedFull.length)) →
      SameButCaptured w ((l.foldl (colorStep visitedFull co) st).world) ∧
      (l.foldl (colorStep visitedFull co) st).groups x = none := by
  intro l
  induction l with
  | nil => intro st hsbc hg _; exact ⟨hsbc, hg⟩
  | cons tid rest ih =>
    intro st hsbc hg hx
    rw [List.foldl_cons]
    have hstep : SameButCaptured w ((colorStep visitedFull co st tid).world) ∧
        (colorStep visitedFull co st tid).groups x = none := by
      unfold colorStep
      cases hl : lookupTent st.world tid with
      | none => exact ⟨hsbc, hg⟩
      | some t =>
        dsimp only
        have hxne : tid = x →
            t.isRuinedByPlayer = false ∧
            MAX_CAPTURABLE_TENT_GROUP < visitedFull.length := by
          intro hteq
          subst hteq
          obtain ⟨hNR, hbig⟩ := hx (List.mem_cons_self _ _)
          have hNR' : isNRTent st.world tid = true := by
            rw [SBC_isNRTent hsbc]; exact hNR
          unfold isNRTent at hNR'
          rw [hl] at hNR'
          exact ⟨by simpa using hNR', hbig⟩
        split_ifs with h1 h2 h3 h4
        · -- green: only reached for a ruined tent, never for x
          refine ⟨hsbc, ?_⟩
          unfold tgSet
          dsimp only
          split_ifs with hxx
          · have hrf := (hxne hxx.symm).1
            rw [hrf] at h1
            exact Bool.noConfusion h1
          · exact hg
        · exact ⟨hsbc, hg⟩
        · -- red: would need the group size to be at most the cap
          refine ⟨hsbc, ?_⟩
          unfold tgSet
          dsimp only
          split_ifs with hxx
          · exact absurd (hxne hxx.symm).2 h2
          · exact hg
        · -- blue (score bonus): likewise, plus a captured flag on the world
          refine ⟨SameButCaptured_setCaptured w st.world tid hsbc, ?_⟩
          unfold tgSet
          dsimp only
          split_ifs with hxx
          · exact absurd (hxne hxx.symm).2 h2
          · exact hg
        · -- blue (already captured, no bonus)
          refine ⟨SameButCaptured_setCaptured w st.world tid hsbc, ?_⟩
          unfold tgSet
          dsimp only
          split_ifs with hxx
          · exact absurd (hxne hxx.symm).2 h2
          · exact hg
    obtain ⟨hsbc1, hg1⟩ := hstep
    exact ih (colorStep visitedFull co st tid) hsbc1 hg1
      (fun hxx => hx (List.mem_cons_of_mem _ hxx))

theorem findAndColor_preserve (w : CaptureWorld) (x : Nat) (st : ColorState)
    (s : Nat) (hsbc : SameButCaptured w st.world) (hg : st.groups x = none)
    (hx : x ∈ (checkForTentGroup st.world s).1 →
      (isNRTent w x = true ∧
        MAX_CAPTURABLE_TENT_GROUP < (checkForTentGroup st.world s).1.length)) :
    SameButCaptured w ((findAndColorTentGroup st s).world) ∧
    (findAndColorTentGroup st s).groups x = none := by
  unfold findAndColorTentGroup
  exact colorFold_preserve w x _ _ _ st hsbc hg hx

theorem recompute_fold_none (w : CaptureWorld) (x : Nat)
    (hx : ∀ (w' : CaptureWorld), SameButCaptured w w' →
      ∀ s, x ∈ (checkForTentGroup w' s).1 →
        (isNRTent w x = true ∧
          MAX_CAPTURABLE_TENT_GROUP < (checkForTentGroup w' s).1.length)) :
    ∀ (ids : List Nat) (st : ColorState), SameButCaptured w st.world →
      st.groups x = none →
      (ids.foldl findAndColorTentGroup st).groups x = none := by
  intro ids
  induction ids with
  | nil => intro st _ hg; exact hg
  | cons s rest ih =>
    intro st hsbc hg
    rw [List.foldl_cons]
    obtain ⟨hsbc1, hg1⟩ :=
      findAndColor_preserve w x st s hsbc hg (hx st.world hsbc s)
    exact ih _ hsbc1 hg1

theorem nodup_subset_length_le {l1 l2 : List Nat} (hnd : l1.Nodup)
    (hsub : ∀ x ∈ l1, x ∈ l2) : l1.length ≤ l2.length := by
  have h1 : l1.length = l1.toFinset.card := (List.toFinset_card_of_nodup hnd).symm
  have h2 : l1.toFinset ⊆ l2.toFinset := by
    intro x hx
    rw [List.mem_toFinset] at hx
    rw [List.mem_toFinset]
    exact hsub x hx
  have h3 := Finset.card_le_card h2
  have h4 := List.toFinset_card_le l2
  omega

/-! ### C1 (amended) and C3 -/

/-- C1 amended.  Ruin boundary, as the code implements it: (i) flood-fill
never propagates through a ruined structure — every visited structure is
reachable from the start along a path of non-ruined proximity-adjacent tents
(so two non-ruined tents connected only via a ruined tent are never grouped
together); (ii) a ruined structure is never added to the visited set, so
after a full recompute it has no entry in the tentGroups map at all (amended
from: is colored green — the green branch is unreachable because `visit`
returns before adding a ruined tent). -/
theorem ruin_boundary (w : CaptureWorld) (score : Int) (start x tid : Nat)
    (t : Tent) (hx : x ∈ (checkForTentGroup w start).1)
    (ht : lookupTent w tid = some t) (hr : t.isRuinedByPlayer = true) :
    NRPath w start x ∧
    (checkForTentGroupsAdjacent w score).groups tid = none := by
  constructor
  · rcases visitGo_sound w (w.tents.length + 1) start ([], false) x hx with h | h
    · exact absurd h (List.not_mem_nil x)
    · exact h
  · unfold checkForTentGroupsAdjacent
    refine recompute_fold_none w tid ?_ _ _ (SameButCaptured_refl w) rfl
    intro w' hsbc s hmem
    have hNR' : isNRTent w' tid = true := by
      rcases visitGo_sound w' (w'.tents.length + 1) s ([], false) tid hmem
        with h | h
      · exact absurd h (List.not_mem_nil tid)
      · exact NRPath_endNR h
    rw [SBC_isNRTent hsbc] at hNR'
    unfold isNRTent at hNR'
    rw [ht] at hNR'
    dsimp only at hNR'
    rw [hr] at hNR'
    exact Bool.noConfusion hNR'

theorem ruin_boundary_witness :
    NRPath ruinExWorld 1 1 ∧
    (checkForTentGroupsAdjacent ruinExWorld 0).groups 0 = none :=
  ruin_boundary ruinExWorld 0 1 1 0 { pissiness := 3 } (by decide)
    (by decide) (by decide)

theorem ruin_boundary_counterexample :
    lookupTent ruinExWorld 0 = some { pissiness := 3 } ∧
    Tent.isRuinedByPlayer { pissiness := 3 } = true ∧
    (checkForTentGroupsAdjacent ruinExWorld 0).groups 0 = none ∧
    (checkForTentGroupsAdjacent ruinExWorld 0).groups 0 ≠
      some TentGroup.green := by
  refine ⟨by decide, by decide, by decide, ?_⟩
  intro hc
  have : (none : Option TentGroup) = some TentGroup.green := by
    rw [← hc]
    decide
  exact Option.noConfusion this

/-- C3.  Group size cap: if `x` belongs to a connected non-ruined group of
more than MAX_CAPTURABLE_TENT_GROUP structures (witnessed by a duplicate-free
list of ruin-free-reachable members), then after a full ownership recompute
`x` has no entry in the tentGroups map — in particular it is neither blue nor
red. -/
theorem group_size_cap (w : CaptureWorld) (score : Int) (x : Nat)
    (L : List Nat) (hnd : L.Nodup) (hall : ∀ y ∈ L, NRPath w x y)
    (hlen : MAX_CAPTURABLE_TENT_GROUP < L.length) :
    (checkForTentGroupsAdjacent w score).groups x = none := by
  unfold checkForTentGroupsAdjacent
  refine recompute_fold_none w x ?_ _ _ (SameButCaptured_refl w) rfl
  intro w' hsbc s hmem
  -- soundness: x is non-ruined
  have hxNR' : isNRTent w' x = true := by
    rcases visitGo_sound w' (w'.tents.length + 1) s ([], false) x hmem
      with h | h
    · exact absurd h (List.not_mem_nil x)
    · exact NRPath_endNR h
  have hxNR : isNRTent w x = true := by rw [← SBC_isNRTent hsbc]; exact hxNR'
  refine ⟨hxNR, ?_⟩
  -- completeness: the whole ruin-free component of x is in the visited set
  have hclos := (visitGo_complete w' (w'.tents.length + 1) s ([], false)
    List.nodup_nil (fun y hy => absurd hy (List.not_mem_nil y))
    (List.not_mem_nil s) (by simp)).2
  have hsubL : ∀ y ∈ L, y ∈ (checkForTentGroup w' s).1 := by
    intro y hy
    have hp := hall y hy
    clear hy
    induction hp with
    | refl _ => exact hmem
    | step hpab hadj hNRc ih =>
      refine hclos _ ih (List.not_mem_nil _) _ ?_ ?_
      · rw [SBC_adjOf hsbc]; exact hadj
      · rw [SBC_isNRTent hsbc]; exact hNRc
  have := nodup_subset_length_le hnd hsubL
  omega

theorem group_size_cap_witness :
    (checkForTentGroupsAdjacent chainExWorld 0).groups 0 = none := by
  have h0 : NRPath chainExWorld 0 0 := NRPath.refl 0 (by decide)
  have h1 : NRPath chainExWorld 0 1 := NRPath.step h0 (by decide) (by decide)
  have h2 : NRPath chainExWorld 0 2 := NRPath.step h1 (by decide) (by decide)
  have h3 : NRPath chainExWorld 0 3 := NRPath.step h2 (by decide) (by decide)
  refine group_size_cap chainExWorld 0 0 [0, 1, 2, 3] (by decide) ?_ (by decide)
  intro y hy
  have hy' : y = 0 ∨ y = 1 ∨ y = 2 ∨ y = 3 := by
    rcases List.mem_cons.mp hy with h | hy
    · exact Or.inl h
    rcases List.mem_cons.mp hy with h | hy
    · exact Or.inr (Or.inl h)
    rcases List.mem_cons.mp hy with h | hy
    · exact Or.inr (Or.inr (Or.inl h))
    rcases List.mem_cons.mp hy with h | hy
    · exact Or.inr (Or.inr (Or.inr h))
    · exact absurd hy (List.not_mem_nil y)
  rcases hy' with rfl | rfl | rfl | rfl
  · exact h0
  · exact h1
  · exact h2
  · exact h3

theorem findPath_empty_leaves_path_witness :
    findPathCallback ⟨1, 2⟩ none (some []) = none ∧
    findPathCallback ⟨1, 2⟩ none none = none ∧
    ([((0 : Int), (0 : Int))] ≠ [] →
      findPathCallback ⟨1, 2⟩ none (some [((0 : Int), (0 : Int))]) =
        some ⟨[((0 : Int), (0 : Int))].map tileCenterFromGridCoords, 0⟩) :=
  findPath_empty_leaves_path ⟨1, 2⟩ none [((0 : Int), (0 : Int))]

end Fyre
